import Mathlib

/-!
Shallow embedding of `src/dephell/controllers/dependency.py` (the
`DependencyMaker` construction core of dephell) together with the
collaborator contracts it consumes (links, constraints, markers,
repositories, the requirement grammar).  The collaborators are not part
of the shown sources, so they are modelled from the specification; the
construction core itself is translated line by line from the source.
-/

namespace Dephell

/-! ## Character-list string helpers

The embedding works on `List Char` (via `String.data`) with structural
recursion, so every definition evaluates by kernel reduction.
-/

/-- Split a character list on a separator character.  Mirrors Python
`str.split(sep)` for a one-character separator: always returns at least
one (possibly empty) piece. -/
def chSplit (sep : Char) : List Char → List (List Char)
  | [] => [[]]
  | c :: rest =>
    let r := chSplit sep rest
    if c = sep then [] :: r
    else
      match r with
      | [] => [[c]]
      | h :: t => (c :: h) :: t

/-- Join character lists with a separator character (inverse of `chSplit`). -/
def chJoin (sep : Char) : List (List Char) → List Char
  | [] => []
  | [x] => x
  | x :: y :: rest => x ++ sep :: chJoin sep (y :: rest)

/-- Does the second list start with the first one? -/
def chHasLead : List Char → List Char → Bool
  | [], _ => true
  | _ :: _, [] => false
  | p :: ps, c :: cs => p = c && chHasLead ps cs

/-- Strip leading and trailing whitespace, like Python `str.strip()`. -/
def chTrim (l : List Char) : List Char :=
  ((l.dropWhile Char.isWhitespace).reverse.dropWhile Char.isWhitespace).reverse

/-- String-level trim built on `chTrim`. -/
def sTrim (s : String) : String := String.mk (chTrim s.data)

/-- String-level test for a leading substring. -/
def sHasLead (lead s : String) : Bool := chHasLead lead.data s.data

/-! ## Links

Modelled from the spec: the Link Resolver (dephell's `links` module is
not among the shown sources) classifies an optional URL into no link, a
direct artifact link, or a version-control link; a VCS link carries an
optional pinned revision and, when derivable from the URL, a package
name.  The recognised VCS URL shape is `vcs+scheme://host/path@revision`.
-/

inductive Link where
  | direct (url : String)
  | vcs (url : String) (rev : Option String) (linkname : Option String)
deriving DecidableEq

/-- The `name` attribute of a link: only VCS links carry a recoverable
package name in this model (per the spec's Link Resolver contract). -/
def Link.name : Link → Option String
  | .direct _ => none
  | .vcs _ _ n => n

/-- The `rev` attribute of a link. -/
def Link.rev : Link → Option String
  | .direct _ => none
  | .vcs _ r _ => r

/-- Is the URL of the `vcs+scheme://...` shape: a scheme part containing
a `+` in front of `://`? -/
def isVcsUrl (l : List Char) : Bool :=
  let pre := l.takeWhile (fun c => c ≠ ':')
  chHasLead "://".data (l.drop pre.length) &&
    match chSplit '+' pre with
    | _ :: _ :: _ => true
    | _ => false

/-- The last `/`-separated segment of the part after `://` (used to
recover a package name from a VCS URL). -/
def lastSeg (l : List Char) : List Char :=
  let pre := l.takeWhile (fun c => c ≠ ':')
  let body :=
    if chHasLead "://".data (l.drop pre.length) then l.drop (pre.length + 3)
    else l
  (chSplit '/' body).getLastD []

/-- Modelled from the spec: `parse_link` (the Link Resolver entry point,
not among the shown sources).  `None`/empty → no link; a
`vcs+scheme://host/path@revision` URL → a VCS link with the revision
after the last `@` and the last path segment as recoverable name; any
other non-empty URL → a direct link. -/
def parse_link (url : Option String) : Option Link :=
  match url with
  | none => none
  | some s =>
    if s.data = [] then none
    else if isVcsUrl s.data then
      match chSplit '@' s.data with
      | [_] =>
        let nm := lastSeg s.data
        some (.vcs s none (if nm = [] then none else some (String.mk nm)))
      | pieces =>
        let rev := pieces.getLastD []
        let body := chJoin '@' pieces.dropLast
        let nm := lastSeg body
        some (.vcs (String.mk body)
          (if rev = [] then none else some (String.mk rev))
          (if nm = [] then none else some (String.mk nm)))
    else some (.direct s)

/-- The guard `isinstance(link, VCSLink) and link.rev` from the source:
a version-control link whose revision is present and non-empty. -/
def linkVcsRev : Option Link → Bool
  | some (.vcs _ (some r) _) => r.data ≠ []
  | _ => false

/-! ## Constraints and specifiers -/

/-- A value stored in a constraint slot: a textual version range, or the
`GitSpecifier` sentinel meaning "exactly this VCS state". -/
inductive Specifier where
  | range (text : String)
  | git
deriving DecidableEq

/-- Modelled from the spec: a `Constraint` keeps a mapping (here an
association list, in insertion order) from a dependency name to the
specifier that dependency is bound to — the `_specs` dict of dephell's
`Constraint`, which is not among the shown sources. -/
structure Constraint where
  specs : List (String × Specifier)
deriving DecidableEq

/-- Modelled from the spec: `Constraint(source, spec)` binds the given
version-range text to `source`, producing a fresh one-entry mapping
keyed by `source`'s name. -/
def Constraint.make (sourceName : String) (specText : String) : Constraint :=
  ⟨[(sourceName, .range specText)]⟩

/-- Dict assignment `constraint._specs[key] = v`: replace the entry for
`key` when present, otherwise append it. -/
def Constraint.setSpec (c : Constraint) (key : String) (v : Specifier) :
    Constraint :=
  if c.specs.any (fun p => p.1 = key) then
    ⟨c.specs.map (fun p => if p.1 = key then (key, v) else p)⟩
  else ⟨c.specs ++ [(key, v)]⟩

/-- Look up the specifier stored for `key`. -/
def Constraint.find (c : Constraint) (key : String) : Option Specifier :=
  (c.specs.find? (fun p => p.1 = key)).map Prod.snd

/-- The constraint slot of a `Dependency`: `from_params` accepts either
an already-built `Constraint`-like value or a plain textual range and,
when no `source` is supplied, stores it unchanged, so the field is a
union of the two shapes. -/
inductive DepConstraint where
  | rawText (s : String)
  | built (c : Constraint)
deriving DecidableEq

/-- Modelled from the spec: `Constraint(source, spec)` where `spec` is
the constraint argument of `from_params`.  The textual case is the one
exercised by the shown sources; handing over an already-built mapping is
kept total by returning it unchanged (no shown caller reaches it). -/
def Constraint.makeFrom (sourceName : String) : DepConstraint → Constraint
  | .rawText s => Constraint.make sourceName s
  | .built c => c

/-- Is the stored constraint the VCS-pin: a built, non-empty mapping all
of whose slots hold the `GitSpecifier` sentinel? -/
def DepConstraint.isVcsPin : DepConstraint → Bool
  | .rawText _ => false
  | .built c => !c.specs.isEmpty && c.specs.all (fun p => p.2 = Specifier.git)

/-! ## Markers, repositories, dependencies -/

/-- Modelled from the spec: an environment-marker expression, parsed
into an evaluable object; the construction core only wraps the text. -/
structure Markers where
  text : String
deriving DecidableEq

/-- A resolved package source. -/
inductive Repo where
  | index
  | directURL (url : String)
  | vcsRepo (url : String)
deriving DecidableEq

/-- Modelled from the spec: the Repository Locator `get_repo` maps a VCS
link to a VCS repository, a plain link to a direct-URL pseudo-repository
and the absence of a link to the index repository. -/
def get_repo : Option Link → Repo
  | none => .index
  | some (.direct u) => .directURL u
  | some (.vcs u _ _) => .vcsRepo u

/-- The dependency node assembled by the construction core (the fields
`DependencyMaker` passes to `dep_class`). -/
structure Dependency where
  raw_name : String
  constraint : DepConstraint
  repo : Repo
  link : Option Link
  marker : Option Markers
  editable : Bool
deriving DecidableEq

/-- The `name` of a dependency as used for constraint keying
(`source.name`); modelled from the spec, which keeps `raw_name` "as
written, not yet normalized". -/
def Dependency.name (d : Dependency) : String := d.raw_name

/-- `ExtraDependency.from_dep(dep=base, extra=e)`: a derived dependency
holding a back-reference to its base and one extra name. -/
structure ExtraDependency where
  dep : Dependency
  extra : String
deriving DecidableEq

def ExtraDependency.from_dep (dep : Dependency) (extra : String) :
    ExtraDependency :=
  ⟨dep, extra⟩

/-- An element of the result list `List[Union[Dependency, ExtraDependency]]`. -/
inductive DepOrExtra where
  | base (d : Dependency)
  | extra (e : ExtraDependency)
deriving DecidableEq

/-! ## The requirement grammar -/

/-- The parsed requirement object (the fields of
`packaging.requirements.Requirement` the core reads: `name`,
`specifier`, `extras`, `marker`, `url`). -/
structure Requirement where
  name : String
  specifier : String
  extras : List String
  marker : Option String
  url : Option String
deriving DecidableEq

/-- Failure of requirement-text parsing. -/
inductive BuildError where
  | parseError
deriving DecidableEq

/-- A character allowed in a package or extra name. -/
def isNameChar (c : Char) : Bool :=
  c.isAlphanum || c = '-' || c = '_' || c = '.'

/-- A valid package or extra name: non-empty, made of name characters,
starting with a letter or digit. -/
def validName (l : List Char) : Bool :=
  !l.isEmpty && l.all isNameChar && (l.headD 'a').isAlphanum

/-- One comparison clause of a version specifier starts with a known
comparison operator. -/
def validClause (l : List Char) : Bool :=
  let t := chTrim l
  chHasLead "==".data t || chHasLead ">=".data t || chHasLead "<=".data t ||
    chHasLead "~=".data t || chHasLead "!=".data t ||
    chHasLead "<".data t || chHasLead ">".data t

/-- A version-specifier text: empty, or comma-separated comparison
clauses. -/
def validSpecText (l : List Char) : Bool :=
  l.isEmpty || (chSplit ',' l).all validClause

/-- Modelled from the spec: the standard dependency-specification
grammar — a name, an optional bracketed extras list, an optional
version-specifier clause, an optional `@ url` part and an optional
`; marker` clause.  The parser (`packaging.requirements.Requirement`) is
not among the shown sources. -/
def parseRequirement (t : String) : Except BuildError Requirement :=
  let mparts := chSplit ';' t.data
  let mainPart := mparts.headD []
  let markerTxt : Option (List Char) :=
    match mparts with
    | _ :: rest :: more => some (chTrim (chJoin ';' (rest :: more)))
    | _ => none
  let uparts := chSplit '@' mainPart
  let lhs := chTrim (uparts.headD [])
  let urlTxt : Option (List Char) :=
    match uparts with
    | _ :: rest :: more => some (chTrim (chJoin '@' (rest :: more)))
    | _ => none
  let nm := lhs.takeWhile isNameChar
  let rest := lhs.drop nm.length
  if !validName nm then .error .parseError
  else if markerTxt = some [] then .error .parseError
  else if urlTxt = some [] then .error .parseError
  else
    match rest with
    | '[' :: inner =>
      match chSplit ']' inner with
      | exs :: after :: more =>
        let extras := (chSplit ',' exs).map chTrim
        let spec := chTrim (chJoin ']' (after :: more))
        if extras.all validName && validSpecText spec then
          .ok ⟨String.mk nm, String.mk spec, extras.map String.mk,
            markerTxt.map String.mk, urlTxt.map String.mk⟩
        else .error .parseError
      | _ => .error .parseError
    | _ =>
      if validSpecText (chTrim rest) then
        .ok ⟨String.mk nm, String.mk (chTrim rest), [],
          markerTxt.map String.mk, urlTxt.map String.mk⟩
      else .error .parseError

/-! ## The construction core (translated from
`src/dephell/controllers/dependency.py`) -/

/-- `rex_hash.fullmatch(raw_name)`: the whole string matches
`[a-f0-9]{7}` — exactly seven characters, each a lowercase hex digit. -/
def rex_hash_fullmatch (s : String) : Bool :=
  s.data.length = 7 &&
    s.data.all (fun c => ('a' ≤ c && c ≤ 'f') || ('0' ≤ c && c ≤ '9'))

/-- `url or req.url` with Python truthiness: an empty override URL falls
back to the requirement's URL. -/
def effectiveUrl (url : Option String) (req : Requirement) : Option String :=
  match url with
  | some u => if u.data = [] then req.url else some u
  | none => req.url

/-- The base dependency built by `DependencyMaker.from_requirement`:
link from the effective URL, constraint from the requirement's
specifier with the VCS-pin override, repo via `get_repo`, marker wrapped
when present. -/
def reqBaseDep (source : Dependency) (req : Requirement)
    (url : Option String) (editable : Bool) : Dependency :=
  let link := parse_link (effectiveUrl url req)
  let c0 := Constraint.make source.name req.specifier
  let c := if linkVcsRev link then c0.setSpec source.name .git else c0
  { raw_name := req.name
    constraint := .built c
    repo := get_repo link
    link := link
    marker := req.marker.map Markers.mk
    editable := editable }

/-- `DependencyMaker.from_requirement` after requirement parsing: the
base dependency followed by one `ExtraDependency` per extra, in listed
order.  The second component is the `source` object as observable after
the call: the only in-place write in the source code targets the
constraint mapping freshly created inside the call, so `source` is
returned unchanged. -/
def fromRequirementCore (source : Dependency) (req : Requirement)
    (url : Option String) (editable : Bool) :
    List DepOrExtra × Dependency :=
  let base := reqBaseDep source req url editable
  (DepOrExtra.base base ::
      req.extras.map (fun ex => .extra (ExtraDependency.from_dep base ex)),
    source)

/-- `DependencyMaker.from_requirement`: a raw text is first parsed by
the requirement grammar (`if type(req) is str: req =
PackagingRequirement(req)`), then both input shapes continue through the
same pipeline. -/
def from_requirement (source : Dependency) (req : String ⊕ Requirement)
    (url : Option String) (editable : Bool) :
    Except BuildError (List DepOrExtra × Dependency) :=
  match req with
  | .inl text =>
    match parseRequirement text with
    | .ok r => .ok (fromRequirementCore source r url editable)
    | .error e => .error e
  | .inr r => .ok (fromRequirementCore source r url editable)

/-- The base dependency built by `DependencyMaker.from_params`: name
recovery for pipenv-generated hash names, constraint wrapping (and
VCS-pin override) only when a `source` is given, repo lookup only when
no explicit `repo` is given. -/
def paramsBaseDep (raw_name : String) (constraint : DepConstraint)
    (url : Option String) (source : Option Dependency) (repo : Option Repo)
    (marker : Option String) (editable : Bool) : Dependency :=
  let link := parse_link url
  let nm :=
    match link with
    | some l =>
      match l.name with
      | some n => if n.data ≠ [] && rex_hash_fullmatch raw_name then n
                  else raw_name
      | none => raw_name
    | none => raw_name
  let c :=
    match source with
    | some src =>
      let c0 := Constraint.makeFrom src.name constraint
      DepConstraint.built
        (if linkVcsRev link then c0.setSpec src.name .git else c0)
    | none => constraint
  let r :=
    match repo with
    | some rp => rp
    | none => get_repo link
  { raw_name := nm
    constraint := c
    repo := r
    link := link
    marker := marker.map Markers.mk
    editable := editable }

/-- `DependencyMaker.from_params`: the base dependency followed by one
`ExtraDependency` per listed extra.  As in `fromRequirementCore`, the
second component is the `source` object after the call. -/
def from_params (raw_name : String) (constraint : DepConstraint)
    (url : Option String) (source : Option Dependency) (repo : Option Repo)
    (marker : Option String) (extras : Option (List String))
    (editable : Bool) : List DepOrExtra × Option Dependency :=
  let base := paramsBaseDep raw_name constraint url source repo marker editable
  (DepOrExtra.base base ::
      (extras.getD []).map (fun ex => .extra (ExtraDependency.from_dep base ex)),
    source)


/-! ## Accessors and sample inputs used by the verification -/

/-- The specifier the base dependency's built constraint stores for
`key`; `none` when the constraint is an unwrapped pass-through value. -/
def Dependency.constraintFor (d : Dependency) (key : String) :
    Option Specifier :=
  match d.constraint with
  | .built c => c.find key
  | .rawText _ => none

/-- The recoverable, non-empty name carried by an optional link (the
Python truthiness test `link and link.name`). -/
def recoveredName : Option Link → Option String
  | some l =>
    match l.name with
    | some n => if n.data = [] then none else some n
    | none => none
  | none => none

/-- A sample source dependency for concrete evaluations. -/
def srcEx : Dependency :=
  ⟨"root", .rawText "", .index, none, none, false⟩

/-- A sample parsed requirement carrying a pinned VCS URL, a version
range and two extras. -/
def reqEx : Requirement :=
  ⟨"pkg", ">=1.0,<2.0", ["extra1", "extra2"], none,
    some "git+https://example.com/org/pkg@abc1234"⟩

/-! ## Helper lemmas -/

/-- Overwriting the only slot of a one-entry constraint replaces its
value. -/
theorem setSpec_make_self (n s : String) :
    (Constraint.make n s).setSpec n .git = ⟨[(n, .git)]⟩ := by
  simp [Constraint.make, Constraint.setSpec]

/-- Lookup in a one-entry constraint. -/
theorem find_single (n : String) (v : Specifier) :
    Constraint.find ⟨[(n, v)]⟩ n = some v := by
  simp [Constraint.find, List.find?]

/-- A one-entry constraint holding the git sentinel is a VCS pin. -/
theorem isVcsPin_single_git (n : String) :
    DepConstraint.isVcsPin (.built ⟨[(n, .git)]⟩) = true := by
  simp [DepConstraint.isVcsPin]

/-! ## Claim theorems -/

/-- C1: for every `from_requirement` call, and every `from_params` call
with a source supplied, in which the resolved link is a VCS link with a
non-empty revision, the constructed constraint's entry for the
(source, target) pair — the slot keyed by the source's name — is the
`GitSpecifier` VCS-pin sentinel, regardless of the version-specifier
text supplied in the requirement or in the constraint argument. -/
theorem vcs_pin_overrides_specifier_text (source : Dependency)
    (req : Requirement) (url : Option String) (e : Bool) (rn s : String)
    (url2 : Option String) (rp : Option Repo) (mk : Option String) (e2 : Bool)
    (h1 : linkVcsRev (parse_link (effectiveUrl url req)) = true)
    (h2 : linkVcsRev (parse_link url2) = true) :
    (reqBaseDep source req url e).constraintFor source.name = some .git ∧
    (paramsBaseDep rn (.rawText s) url2 (some source) rp mk
        e2).constraintFor source.name = some .git := by
  constructor
  · simp only [Dependency.constraintFor, reqBaseDep, h1, if_true]
    rw [setSpec_make_self]
    exact find_single source.name .git
  · simp only [Dependency.constraintFor, paramsBaseDep, Constraint.makeFrom,
      h2, if_true]
    rw [setSpec_make_self]
    exact find_single source.name .git

/-- C1 witness: both hypotheses and the conclusion at the concrete
inputs `srcEx`/`reqEx` and a pinned git URL. -/
theorem vcs_pin_overrides_specifier_text_witness :
    (linkVcsRev (parse_link (effectiveUrl none reqEx)) = true ∧
      linkVcsRev (parse_link
        (some "git+https://example.com/org/pkg@abc1234")) = true) ∧
    ((reqBaseDep srcEx reqEx none false).constraintFor srcEx.name =
        some .git ∧
      (paramsBaseDep "pkg" (.rawText ">=1.0,<2.0")
          (some "git+https://example.com/org/pkg@abc1234") (some srcEx) none
          none false).constraintFor srcEx.name = some .git) :=
  ⟨⟨by decide, by decide⟩,
    vcs_pin_overrides_specifier_text srcEx reqEx none false "pkg" ">=1.0,<2.0"
      (some "git+https://example.com/org/pkg@abc1234") none none false
      (by decide) (by decide)⟩

/-- C2 counterexample: `from_params` called without a source, with the
range `>=1.0,<2.0` and a pinned git URL, yields a dependency whose link
is a VCS link with a non-empty revision but whose constraint is the
unchanged textual range — the claimed invariant fails on the
without-a-source path. -/
theorem vcs_pin_invariant_fails_without_source :
    linkVcsRev (paramsBaseDep "pkg" (.rawText ">=1.0,<2.0")
        (some "git+https://example.com/org/pkg@abc1234") none none none
        false).link = true ∧
    (paramsBaseDep "pkg" (.rawText ">=1.0,<2.0")
        (some "git+https://example.com/org/pkg@abc1234") none none none
        false).constraint.isVcsPin = false := by
  constructor
  · decide
  · decide

/-- C2 (amended): for every dependency constructed by
`from_requirement`, or by `from_params` with a source supplied (and a
textual constraint argument), if its link is a version-control link with
a pinned, non-empty revision then its constraint is the VCS-pin
(`GitSpecifier`) constraint; `from_params` without a source passes the
constraint through unchanged, so the invariant does not extend to that
path. -/
theorem vcs_pin_invariant_with_source (source : Dependency)
    (req : Requirement) (url : Option String) (e : Bool) (rn s : String)
    (url2 : Option String) (rp : Option Repo) (mk : Option String) (e2 : Bool)
    (h1 : linkVcsRev (reqBaseDep source req url e).link = true)
    (h2 : linkVcsRev (paramsBaseDep rn (.rawText s) url2 (some source) rp mk
        e2).link = true) :
    (reqBaseDep source req url e).constraint.isVcsPin = true ∧
    (paramsBaseDep rn (.rawText s) url2 (some source) rp mk
        e2).constraint.isVcsPin = true := by
  simp only [reqBaseDep] at h1
  simp only [paramsBaseDep] at h2
  constructor
  · simp only [reqBaseDep, h1, if_true]
    rw [setSpec_make_self]
    exact isVcsPin_single_git source.name
  · simp only [paramsBaseDep, Constraint.makeFrom, h2, if_true]
    rw [setSpec_make_self]
    exact isVcsPin_single_git source.name

/-- C2 (amended) witness: the hypotheses and the conclusion at the
concrete inputs `srcEx`/`reqEx` and a pinned git URL. -/
theorem vcs_pin_invariant_with_source_witness :
    (linkVcsRev (reqBaseDep srcEx reqEx none false).link = true ∧
      linkVcsRev (paramsBaseDep "pkg" (.rawText ">=1.0,<2.0")
          (some "git+https://example.com/org/pkg@abc1234") (some srcEx) none
          none false).link = true) ∧
    ((reqBaseDep srcEx reqEx none false).constraint.isVcsPin = true ∧
      (paramsBaseDep "pkg" (.rawText ">=1.0,<2.0")
          (some "git+https://example.com/org/pkg@abc1234") (some srcEx) none
          none false).constraint.isVcsPin = true) :=
  ⟨⟨by decide, by decide⟩,
    vcs_pin_invariant_with_source srcEx reqEx none false "pkg" ">=1.0,<2.0"
      (some "git+https://example.com/org/pkg@abc1234") none none false
      (by decide) (by decide)⟩

/-- C3: in `from_params` the base dependency's name is the link's
recoverable (non-empty) name exactly when the given `raw_name` is seven
lowercase hexadecimal characters and the resolved link carries such a
name; for every other `raw_name` the name passes through unchanged even
when a link name is available. -/
theorem name_recovery_characterisation (rn : String) (cv : DepConstraint)
    (url : Option String) (src : Option Dependency) (rp : Option Repo)
    (mk : Option String) (e : Bool) :
    (paramsBaseDep rn cv url src rp mk e).raw_name =
      match recoveredName (parse_link url) with
      | some n => if rex_hash_fullmatch rn then n else rn
      | none => rn := by
  cases hL : parse_link url with
  | none => simp [paramsBaseDep, recoveredName, hL]
  | some l =>
    cases hN : l.name with
    | none => simp [paramsBaseDep, recoveredName, hL, hN]
    | some n =>
      by_cases hd : n.data = []
      · simp [paramsBaseDep, recoveredName, hL, hN, hd]
      · by_cases hx : rex_hash_fullmatch rn = true
        · simp [paramsBaseDep, recoveredName, hL, hN, hd, hx]
        · simp [paramsBaseDep, recoveredName, hL, hN, hd, hx]

/-- C4: both entry points return a sequence whose head is the base
dependency and whose tail lists one `ExtraDependency` per extra, each
holding a back-reference to the base and exactly the corresponding extra
name, in listed order; the length is therefore `1 + n`. -/
theorem extras_sequence_shape (source : Dependency) (req : Requirement)
    (url : Option String) (e : Bool) (rn : String) (cv : DepConstraint)
    (url2 : Option String) (src : Option Dependency) (rp : Option Repo)
    (mk : Option String) (exs : List String) (e2 : Bool) :
    ((fromRequirementCore source req url e).1 =
        .base (reqBaseDep source req url e) ::
          req.extras.map (fun ex =>
            .extra (ExtraDependency.from_dep (reqBaseDep source req url e)
              ex)) ∧
      (fromRequirementCore source req url e).1.length =
        1 + req.extras.length) ∧
    ((from_params rn cv url2 src rp mk (some exs) e2).1 =
        .base (paramsBaseDep rn cv url2 src rp mk e2) ::
          exs.map (fun ex =>
            .extra (ExtraDependency.from_dep
              (paramsBaseDep rn cv url2 src rp mk e2) ex)) ∧
      (from_params rn cv url2 src rp mk (some exs) e2).1.length =
        1 + exs.length) := by
  refine ⟨⟨rfl, ?_⟩, ⟨rfl, ?_⟩⟩
  · simp [fromRequirementCore, Nat.add_comm]
  · simp [from_params, Nat.add_comm]

/-- C5: `from_params` with no source stores the supplied constraint
value unmodified — no wrapping and no VCS-pin substitution happen on
that path, whatever the URL. -/
theorem no_source_constraint_passthrough (rn : String) (cv : DepConstraint)
    (url : Option String) (rp : Option Repo) (mk : Option String) (e : Bool) :
    (paramsBaseDep rn cv url none rp mk e).constraint = cv := rfl

/-- C6: for every requirement text accepted by the grammar,
`from_requirement` on the raw text and `from_requirement` on the parsed
requirement object return the same result — in particular identical
base-dependency fields. -/
theorem text_and_parsed_requirement_agree (source : Dependency) (t : String)
    (r : Requirement) (url : Option String) (e : Bool)
    (h : parseRequirement t = .ok r) :
    from_requirement source (.inl t) url e =
      from_requirement source (.inr r) url e := by
  simp [from_requirement, h]

/-- C6 witness: the two entry shapes agree on the concrete text
`pkg[extra1,extra2]>=1.0`. -/
theorem text_and_parsed_requirement_agree_witness :
    parseRequirement "pkg[extra1,extra2]>=1.0" =
      .ok ⟨"pkg", ">=1.0", ["extra1", "extra2"], none, none⟩ ∧
    from_requirement srcEx (.inl "pkg[extra1,extra2]>=1.0") none false =
      from_requirement srcEx
        (.inr ⟨"pkg", ">=1.0", ["extra1", "extra2"], none, none⟩) none
        false :=
  ⟨by rfl,
    text_and_parsed_requirement_agree srcEx "pkg[extra1,extra2]>=1.0"
      ⟨"pkg", ">=1.0", ["extra1", "extra2"], none, none⟩ none false (by rfl)⟩

/-- C7: `from_requirement` on raw text fails with `ParseError` (and
builds nothing) exactly when the text does not conform to the
requirement grammar. -/
theorem parse_error_iff_nonconforming (source : Dependency) (t : String)
    (url : Option String) (e : Bool) :
    from_requirement source (.inl t) url e = .error .parseError ↔
      parseRequirement t = .error .parseError := by
  unfold from_requirement
  cases h : parseRequirement t with
  | ok r => simp [h]
  | error b => cases b; simp [h]

/-- C8: neither entry point mutates the supplied source dependency: the
source object observable after the call is the one passed in; the only
in-place write in the code targets the constraint mapping created within
the call. -/
theorem source_unchanged (source : Dependency) (req : Requirement)
    (url url2 : Option String) (e e2 : Bool) (rn : String)
    (cv : DepConstraint) (rp : Option Repo) (mk : Option String)
    (exs : Option (List String)) :
    (fromRequirementCore source req url e).2 = source ∧
    (from_params rn cv url2 (some source) rp mk exs e2).2 = some source :=
  ⟨rfl, rfl⟩

/-- C9: in `from_params` an explicit repo argument is used verbatim, and
the Repository Locator lookup happens only when no repo is passed. -/
theorem explicit_repo_trusted (rn : String) (cv : DepConstraint)
    (url : Option String) (src : Option Dependency) (rp : Repo)
    (mk : Option String) (e : Bool) :
    (paramsBaseDep rn cv url src (some rp) mk e).repo = rp ∧
    (paramsBaseDep rn cv url src none mk e).repo =
      get_repo (parse_link url) :=
  ⟨rfl, rfl⟩

/-- C10: `from_requirement` always uses the requirement's parsed name
verbatim as `raw_name`; the seven-hex name-recovery rule is never
applied on this entry point. -/
theorem from_requirement_keeps_raw_name (source : Dependency)
    (req : Requirement) (url : Option String) (e : Bool) :
    (reqBaseDep source req url e).raw_name = req.name := rfl

end Dephell
